import Mathlib

/-!
# Verification of the OT.ae static-site scripts

Shallow embedding of the three JavaScript components of the repository:

* `src/scripts/generate-sitemap.mjs` — build-time sitemap generator
  (`getHtmlFiles`, `toUrlPath`, `getMeta`, `generate`);
* the navigation scroll handler (`updateHeader`);
* the `ImageOptimizer` class (`getOptimizedSrc`, `getOptimizedSrcset`,
  `loadImage`, the lazy-loading observer registration guard).

JavaScript strings are modelled through their character list (`String.data`);
the JS string primitives used by the code (`endsWith`, `startsWith`,
`includes`, `replace` with the concrete regexes that appear in the source,
`trim`, `split`/`join`) are defined below on that representation.
-/

/-! ## JS string primitives -/

/-- JS `s.endsWith(suffix)`. -/
def jsEndsWith (s suffix : String) : Bool :=
  suffix.data.isSuffixOf s.data

/-- JS `s.startsWith(p)`. -/
def jsStartsWith (s p : String) : Bool :=
  p.data.isPrefixOf s.data

/-- Does `sub` occur as a contiguous substring of `l`? -/
def infixAux (sub : List Char) : List Char → Bool
  | [] => sub.isEmpty
  | c :: cs => sub.isPrefixOf (c :: cs) || infixAux sub cs

/-- JS `s.includes(sub)`. -/
def jsIncludes (s sub : String) : Bool :=
  infixAux sub.data s.data

/-- JS `s.replace(/\\/g, '/')` — every backslash becomes a forward slash. -/
def normSlash (s : String) : String :=
  ⟨s.data.map (fun c => if c = '\\' then '/' else c)⟩

/-- Node `path.join(d, n)` for the shapes this script produces
(`path.join('', n) = n`, otherwise `d ++ "/" ++ n`). -/
def pjoin (d n : String) : String :=
  if d = "" then n else d ++ "/" ++ n

/-- Whitespace removed by JS `String.prototype.trim` (ASCII part). -/
def isJsWhitespace (c : Char) : Bool :=
  c = ' ' || c = '\t' || c = '\n' || c = '\r' || c = '\x0B' || c = '\x0C'

/-- JS `s.trim()`. -/
def jsTrim (s : String) : String :=
  ⟨((s.data.dropWhile isJsWhitespace).reverse.dropWhile isJsWhitespace).reverse⟩

/-- ASCII lowercasing of a whole string (used to model the `/i` regex flag). -/
def lowerStr (s : String) : String :=
  ⟨s.data.map Char.toLower⟩

/-! ## Sitemap generator (`src/scripts/generate-sitemap.mjs`) -/

def BASE_URL : String := "https://onlinetranslation.ae"

def SKIP_FILES : List String := ["404.html", "offline.html"]

def SKIP_DIRS : List String :=
  ["node_modules", ".git", ".github", "scripts", "styles", "images", "attached_assets"]

/-- A directory listing: a sequence of entries, each a file or a directory
with its own listing (the shape `fs.readdir(dir, { withFileTypes: true })`
exposes to the walk). -/
inductive FSTree where
  | leaf : FSTree
  | fileE (name : String) (rest : FSTree) : FSTree
  | dirE (name : String) (children : FSTree) (rest : FSTree) : FSTree
deriving Repr, DecidableEq

/-- `getHtmlFiles` (lines 14–32): recursive walk collecting the full paths of
`.html` files, skipping `SKIP_FILES` and not descending into `SKIP_DIRS`.
Called with `dirPath = ""` the returned paths are relative to the root, which
is what `path.relative(ROOT_DIR, ·)` later recovers in `toUrlPath`'s caller. -/
def getHtmlFiles (dirPath : String) : FSTree → List String
  | .leaf => []
  | .fileE n rest =>
      (if jsEndsWith n ".html" && !(SKIP_FILES.contains n) then [pjoin dirPath n] else [])
        ++ getHtmlFiles dirPath rest
  | .dirE n children rest =>
      (if !(SKIP_DIRS.contains n) then getHtmlFiles (pjoin dirPath n) children else [])
        ++ getHtmlFiles dirPath rest

/-- One file of the tree together with its name and the names of the
directories on the path from the root down to it (outermost first).
Used only to state what `getHtmlFiles` collects. -/
structure FileRec where
  path : String
  name : String
  dirs : List String
deriving Repr, DecidableEq

/-- Every file of the tree, with no filtering at all. -/
def allFiles (dirPath : String) : FSTree → List FileRec
  | .leaf => []
  | .fileE n rest =>
      { path := pjoin dirPath n, name := n, dirs := [] } :: allFiles dirPath rest
  | .dirE n children rest =>
      ((allFiles (pjoin dirPath n) children).map (fun f => { f with dirs := n :: f.dirs }))
        ++ allFiles dirPath rest

/-- The skip-list condition of the spec: an HTML file, not in the skip-file
list, with no skipped directory on its path. -/
def qualifies (f : FileRec) : Bool :=
  jsEndsWith f.name ".html" && !(SKIP_FILES.contains f.name)
    && f.dirs.all (fun d => !(SKIP_DIRS.contains d))

/-- `toUrlPath` (lines 34–43), applied to the `ROOT_DIR`-relative path
(the source first computes `path.relative(ROOT_DIR, filePath)`). -/
def toUrlPath (relPath0 : String) : String :=
  let relPath := normSlash relPath0
  if relPath = "index.html" then "/"
  else
    let r :=
      if jsEndsWith relPath "/index.html" then
        ⟨relPath.data.take (relPath.data.length - "index.html".data.length)⟩
      else relPath
    if jsStartsWith r "/" then r else "/" ++ r

structure SiteMeta where
  changefreq : String
  priority : String
deriving Repr, DecidableEq

/-- `getMeta` (lines 45–54). -/
def getMeta (urlPath : String) : SiteMeta :=
  if urlPath = "/" then ⟨"weekly", "1.0"⟩
  else if jsIncludes urlPath "/services/" then ⟨"weekly", "0.9"⟩
  else if jsIncludes urlPath "/personal/" || jsIncludes urlPath "/legal/" then ⟨"weekly", "0.9"⟩
  else if jsIncludes urlPath "/locations/" then ⟨"monthly", "0.8"⟩
  else if jsIncludes urlPath "/industries/" then ⟨"monthly", "0.7"⟩
  else if jsIncludes urlPath "/resources/" then ⟨"monthly", "0.7"⟩
  else if jsIncludes urlPath "privacy" || jsIncludes urlPath "terms" then ⟨"yearly", "0.3"⟩
  else ⟨"monthly", "0.6"⟩

structure UrlEntry where
  loc : String
  lastmod : String
  changefreq : String
  priority : String
deriving Repr, DecidableEq

/-- The URL-path pipeline of `generate` (lines 60–63):
`htmlFiles.map(toUrlPath).filter(Boolean).sort()`.  JS's default `sort()`
compares strings lexicographically; it is modelled by insertion sort under
the lexicographic order on `String`. -/
def sitemapPaths (files : List String) : List String :=
  List.insertionSort (· ≤ ·) ((files.map toUrlPath).filter (fun p => p != ""))

/-- The record built for one sorted path (lines 64–72). -/
def mkUrlEntry (now p : String) : UrlEntry :=
  { loc := BASE_URL ++ p
    lastmod := now
    changefreq := (getMeta p).changefreq
    priority := (getMeta p).priority }

/-- The full entry list produced by `generate` from the discovered files. -/
def sitemapEntries (files : List String) (now : String) : List UrlEntry :=
  (sitemapPaths files).map (mkUrlEntry now)

/-- The URL path of an entry, recovered from its `loc` by stripping the base. -/
def entryUrlPath (e : UrlEntry) : String :=
  ⟨e.loc.data.drop BASE_URL.data.length⟩

/-- The per-URL XML fragment of the template (lines 79–84). -/
def urlXml (u : UrlEntry) : String :=
  "    <url>\n        <loc>" ++ u.loc ++ "</loc>\n        <lastmod>" ++ u.lastmod ++
    "</lastmod>\n        <changefreq>" ++ u.changefreq ++ "</changefreq>\n        <priority>" ++
    u.priority ++ "</priority>\n    </url>"

/-- The fixed XML prologue of the template (lines 74–78). -/
def xmlHeader : String :=
  "<?xml version=\"1.0\" encoding=\"UTF-8\"?>\n<urlset xmlns=\"http://www.sitemaps.org/schemas/sitemap/0.9\"\n        xmlns:xsi=\"http://www.w3.org/2001/XMLSchema-instance\"\n        xsi:schemaLocation=\"http://www.sitemaps.org/schemas/sitemap/0.9\n                            http://www.sitemaps.org/schemas/sitemap/0.9/sitemap.xsd\">\n"

/-- The serialized document: template, `trim()`, plus the final newline
(line 87: `xml.trim() + '\n'`). -/
def sitemapXml (files : List String) (now : String) : String :=
  jsTrim (xmlHeader ++ String.intercalate "\n" ((sitemapEntries files now).map urlXml)
    ++ "\n</urlset>") ++ "\n"

/-- Outcome of one run of the script: either the sitemap file was written
with some content, or the process exited with a code after logging a line. -/
inductive GenResult where
  | wrote (content : String)
  | failed (exitCode : Nat) (logged : String)
deriving Repr, DecidableEq

/-- `generate().catch(...)` (lines 56–94).  File-system effects are passed in:
`readRes` is the outcome of the directory walk (`Except.error e` when any
read fails, in which case the promise rejects before anything else runs),
`writeRes` the outcome of `fs.writeFile` on a given content.  The `catch`
handler logs `'Error generating sitemap:'` with the error and calls
`process.exit(1)`. -/
def runGenerate (readRes : Except String FSTree) (writeRes : String → Except String Unit)
    (now : String) : GenResult :=
  match readRes with
  | .error e => .failed 1 ("Error generating sitemap: " ++ e)
  | .ok t =>
      let xml := sitemapXml (getHtmlFiles "" t) now
      match writeRes xml with
      | .error e => .failed 1 ("Error generating sitemap: " ++ e)
      | .ok _ => .wrote xml

/-! ## Navigation scroll handler (`src/unnamed/part_001`) -/

/-- `classList.add`: appends the token when absent, no-op when present. -/
def addClass (c : String) (classes : List String) : List String :=
  if classes.contains c then classes else classes ++ [c]

/-- `classList.remove`: removes every occurrence of the token. -/
def removeClass (c : String) (classes : List String) : List String :=
  classes.filter (fun x => x != c)

/-- `updateHeader` (lines 14–29), in the case where the header element
exists: the class list of `#header` after the handler runs, as a function of
`window.pageYOffset` (a pixel offset, modelled as a rational).  When the
element is missing the handler only resets the `ticking` flag. -/
def updateHeader (pageYOffset : ℚ) (headerClasses : List String) : List String :=
  if pageYOffset > 50 then addClass "scrolled" headerClasses
  else removeClass "scrolled" headerClasses

/-! ## Image optimizer (`src/unnamed/part_002`) -/

/-- Model of `src.replace(/\.(jpe?g|png)$/i, '.webp')`: a case-insensitive
`.jpeg` / `.jpg` / `.png` suffix is replaced by `.webp`; with no match the
string is returned unchanged. -/
def replaceImageExtWithWebp (s : String) : String :=
  if jsEndsWith (lowerStr s) ".jpeg" then ⟨s.data.take (s.data.length - 5)⟩ ++ ".webp"
  else if jsEndsWith (lowerStr s) ".jpg" then ⟨s.data.take (s.data.length - 4)⟩ ++ ".webp"
  else if jsEndsWith (lowerStr s) ".png" then ⟨s.data.take (s.data.length - 4)⟩ ++ ".webp"
  else s

/-- `ImageOptimizer.getOptimizedSrc` (lines 90–96), with the resolved
`this.webpSupported` passed explicitly. -/
def getOptimizedSrc (webpSupported : Bool) (src : String) : String :=
  if webpSupported && !(jsEndsWith src ".webp") && !(jsIncludes src "data:") then
    replaceImageExtWithWebp src
  else src

/-- Model of the global replacement `replace(/\.(jpe?g|png)/gi, '.webp')`
used on srcset parts: a left-to-right scan replacing every (unanchored)
case-insensitive occurrence.  `fuel` bounds the recursion; called with the
length of the list it is exact. -/
def replaceExtsAux : Nat → List Char → List Char
  | 0, l => l
  | _ + 1, [] => []
  | fuel + 1, c :: cs =>
    if ".jpeg".data.isPrefixOf ((c :: cs).map Char.toLower) then
      ".webp".data ++ replaceExtsAux fuel ((c :: cs).drop 5)
    else if ".jpg".data.isPrefixOf ((c :: cs).map Char.toLower) then
      ".webp".data ++ replaceExtsAux fuel ((c :: cs).drop 4)
    else if ".png".data.isPrefixOf ((c :: cs).map Char.toLower) then
      ".webp".data ++ replaceExtsAux fuel ((c :: cs).drop 4)
    else c :: replaceExtsAux fuel cs

/-- `ImageOptimizer.getOptimizedSrcset` (lines 98–104). -/
def getOptimizedSrcset (webpSupported : Bool) (srcset : String) : String :=
  if !webpSupported then srcset
  else
    String.intercalate ", " ((srcset.splitOn ",").map (fun part =>
      let t := jsTrim part
      ⟨replaceExtsAux t.data.length t.data⟩))

/-- The DOM state of one `<img>` element as far as the optimizer touches it.
An empty string models an absent attribute (absent `data-src` and `src=""`
are both falsy in the JS guards). -/
structure Img where
  src : String
  srcset : String
  dataSrc : String
  dataSrcset : String
  classes : List String
deriving Repr, DecidableEq

/-- `img.dataset.src || img.src` (line 63). -/
def effectiveSrc (img : Img) : String :=
  if img.dataSrc != "" then img.dataSrc else img.src

/-- `ImageOptimizer.loadImage` (lines 62–88).  `loadSucceeds` tells whether
the browser can load a given URL (the `tempImg.onload` / `onerror` outcome).
Returns the element's state after the probe settles, paired with the URL the
probe requested (`none` when the guard suppressed the load).  The state is
the one immediately after the handler runs; the later timeout that removes
`fade-in` again is not modelled. -/
def loadImage (webpSupported : Bool) (loadSucceeds : String → Bool) (img : Img) :
    Img × Option String :=
  let src := effectiveSrc img
  let srcset := img.dataSrcset
  if src != "" && src != img.src then
    let optimizedSrc := getOptimizedSrc webpSupported src
    if loadSucceeds optimizedSrc then
      ({ img with
          src := optimizedSrc
          srcset := if srcset != "" then getOptimizedSrcset webpSupported srcset else img.srcset
          classes := addClass "fade-in" (addClass "loaded" img.classes) },
        some optimizedSrc)
    else
      ({ img with src := src, classes := addClass "loaded" img.classes }, some optimizedSrc)
  else (img, none)

/-- The registration guard shared by `setupLazyLoading` (lines 48–52) and
`observeNewImages` (lines 126–135): of the candidate images (the
`img[data-src], img[loading="lazy"]` query results), exactly those without
the `loaded` class are handed to `imageObserver.observe`. -/
def observeCandidates (imgs : List Img) : List Img :=
  imgs.filter (fun img => !(img.classes.contains "loaded"))

/-! ## Definitions written from the specification's words (for comparison) -/

/-- Modelled from the spec: "paths whose prefix places them under" a named
directory — the path passes through a directory of that name, i.e. contains
`/name/`. -/
def underDir (name p : String) : Bool :=
  jsIncludes p ("/" ++ name ++ "/")

/-- The metadata assignment exactly as claim C4 words it, as a first-match
decision list: root; services, personal, legal; locations; industries,
resources; privacy/terms pages; every other path. -/
def getMetaSpec (p : String) : SiteMeta :=
  if p = "/" then ⟨"weekly", "1.0"⟩
  else if underDir "services" p || underDir "personal" p || underDir "legal" p then
    ⟨"weekly", "0.9"⟩
  else if underDir "locations" p then ⟨"monthly", "0.8"⟩
  else if underDir "industries" p || underDir "resources" p then ⟨"monthly", "0.7"⟩
  else if jsIncludes p "privacy" || jsIncludes p "terms" then ⟨"yearly", "0.3"⟩
  else ⟨"monthly", "0.6"⟩

/-! ## Shared helper lemmas -/

theorem mem_addClass (c : String) (cs : List String) : c ∈ addClass c cs := by
  unfold addClass
  split
  · next h => simpa using h
  · next _ => simp

theorem not_mem_removeClass (c : String) (cs : List String) : c ∉ removeClass c cs := by
  simp [removeClass]

theorem entryUrlPath_mkUrlEntry (now p : String) : entryUrlPath (mkUrlEntry now p) = p := by
  unfold entryUrlPath mkUrlEntry
  show String.mk ((BASE_URL ++ p).data.drop BASE_URL.data.length) = p
  rw [String.data_append, List.drop_left]

theorem toUrlPath_branch_ne_empty (r : String) :
    (if jsStartsWith r "/" then r else "/" ++ r) ≠ "" := by
  split
  · next h =>
    intro he
    subst he
    revert h
    decide
  · next _ =>
    intro he
    have h2 := congrArg String.data he
    rw [String.data_append] at h2
    have h1 : "/".data = ['/'] := by decide
    rw [h1] at h2
    simp at h2

theorem toUrlPath_ne_empty (s : String) : toUrlPath s ≠ "" := by
  simp only [toUrlPath]
  split
  · decide
  · exact toUrlPath_branch_ne_empty _

theorem getHtmlFiles_eq_filter : ∀ (t : FSTree) (dirPath : String),
    getHtmlFiles dirPath t = ((allFiles dirPath t).filter qualifies).map (fun f => f.path) := by
  intro t
  induction t with
  | leaf => intro d; rfl
  | fileE n rest ih =>
    intro d
    simp only [getHtmlFiles, allFiles]
    rw [List.filter_cons]
    have hq : qualifies { path := pjoin d n, name := n, dirs := [] }
        = (jsEndsWith n ".html" && !(SKIP_FILES.contains n)) := by
      simp [qualifies]
    rw [hq]
    by_cases h : (jsEndsWith n ".html" && !(SKIP_FILES.contains n)) = true
    · rw [if_pos h, if_pos h, List.map_cons, ih]
      rfl
    · rw [if_neg h, if_neg h, ih]
      rfl
  | dirE n children rest ih1 ih2 =>
    intro d
    simp only [getHtmlFiles, allFiles]
    rw [List.filter_append, List.map_append, List.filter_map]
    have hcomp : (qualifies ∘ fun f : FileRec => { f with dirs := n :: f.dirs })
        = fun f => (!(SKIP_DIRS.contains n) && qualifies f) := by
      funext f
      simp only [qualifies, Function.comp, List.all_cons]
      cases jsEndsWith f.name ".html" <;> cases SKIP_FILES.contains f.name <;>
        cases SKIP_DIRS.contains n <;> cases f.dirs.all (fun d => !(SKIP_DIRS.contains d)) <;> rfl
    rw [hcomp]
    by_cases h : (SKIP_DIRS.contains n) = true
    · have hfalse : (fun f : FileRec => (!(SKIP_DIRS.contains n) && qualifies f))
          = fun _ => false := by
        funext f
        rw [h]
        rfl
      have hnot : ¬((!(SKIP_DIRS.contains n)) = true) := by
        rw [h]
        decide
      have hnil : (allFiles (pjoin d n) children).filter (fun _ => false) = [] :=
        List.filter_eq_nil_iff.mpr (fun a _ => by simp)
      rw [hfalse, if_neg hnot, ih2 d, hnil, List.map_nil, List.map_nil, List.nil_append]
    · have hcf : SKIP_DIRS.contains n = false := Bool.eq_false_iff.mpr h
      have hn : (!(SKIP_DIRS.contains n)) = true := by
        rw [hcf]
        rfl
      have htrue : (fun f : FileRec => (!(SKIP_DIRS.contains n) && qualifies f)) = qualifies := by
        funext f
        rw [hn, Bool.true_and]
      rw [if_pos hn, htrue, ih1 (pjoin d n), ih2 d, List.map_map]
      have hpath : ((fun f : FileRec => f.path) ∘ fun f => { f with dirs := n :: f.dirs })
          = fun f : FileRec => f.path := by
        funext f
        rfl
      rw [hpath]

theorem getOptimizedSrc_of_webpEnd (w : Bool) (s : String) (h : jsEndsWith s ".webp" = true) :
    getOptimizedSrc w s = s := by
  unfold getOptimizedSrc
  rw [h]
  simp

theorem getOptimizedSrc_of_dataUri (w : Bool) (s : String) (h : jsIncludes s "data:" = true) :
    getOptimizedSrc w s = s := by
  unfold getOptimizedSrc
  rw [h]
  simp

theorem jsEndsWith_append_webp (x : String) : jsEndsWith (x ++ ".webp") ".webp" = true := by
  show ".webp".data.isSuffixOf (x ++ ".webp").data = true
  rw [String.data_append, List.isSuffixOf_iff_suffix]
  exact List.suffix_append _ _

/-! ## Claim theorems -/

/-- Claim C1, counterexample: the claim says a path ending in `/index.html`
maps to its parent directory path with the trailing slash removed, which at
`services/index.html` would be `/services`; the code keeps the trailing
slash and produces `/services/`. -/
theorem toUrlPath_trailing_slash_counterexample :
    toUrlPath "services/index.html" = "/services/" ∧ "/services/" ≠ "/services" :=
  ⟨rfl, by decide⟩

/-- Claim C1, amended: `index.html` at the root maps to `/`; a relative path
`t ++ "/index.html"` (with `t` a nonempty parent path not starting with `/`
and containing no backslash) maps to `/` ++ `t` ++ `/` — the filename is
stripped but the trailing slash is kept. -/
theorem toUrlPath_index_maps_to_parent_dir (t : List Char) (hne : t ≠ [])
    (hh : t.head? ≠ some '/') (hb : '\\' ∉ t) :
    toUrlPath "index.html" = "/" ∧
    toUrlPath ⟨t ++ ('/' :: "index.html".data)⟩ = ⟨'/' :: (t ++ ['/'])⟩ := by
  refine ⟨rfl, ?_⟩
  have hnoback : ∀ c ∈ t ++ ('/' :: "index.html".data),
      (if c = '\\' then '/' else c) = c := by
    intro c hc
    have hcne : c ≠ '\\' := by
      rcases List.mem_append.mp hc with h | h
      · exact fun he => hb (he ▸ h)
      · have hnb : '\\' ∉ ('/' :: "index.html".data) := by decide
        exact fun he => hnb (he ▸ h)
    simp [hcne]
  have hnorm : normSlash ⟨t ++ ('/' :: "index.html".data)⟩
      = ⟨t ++ ('/' :: "index.html".data)⟩ := by
    unfold normSlash
    exact congrArg String.mk ((List.map_congr_left hnoback).trans (List.map_id _))
  have h10 : "index.html".data.length = 10 := by decide
  have h11 : ('/' :: "index.html".data).length = 11 := by decide
  have hne1 : (⟨t ++ ('/' :: "index.html".data)⟩ : String) ≠ "index.html" := by
    intro h
    have h2 := congrArg String.data h
    have h3 := congrArg List.length h2
    rw [List.length_append] at h3
    rw [h11, h10] at h3
    omega
  have hdata : ('/' :: "index.html".data) = "/index.html".data := by decide
  have hends : jsEndsWith ⟨t ++ ('/' :: "index.html".data)⟩ "/index.html" = true := by
    show "/index.html".data.isSuffixOf (t ++ ('/' :: "index.html".data)) = true
    rw [hdata, List.isSuffixOf_iff_suffix]
    exact List.suffix_append t _
  have hassoc : t ++ ('/' :: "index.html".data) = (t ++ ['/']) ++ "index.html".data := by simp
  have htake : (t ++ ('/' :: "index.html".data)).take
      ((t ++ ('/' :: "index.html".data)).length - "index.html".data.length) = t ++ ['/'] := by
    rw [hassoc]
    apply List.take_left'
    rw [List.length_append, List.length_append, List.length_append, h10]
    simp
  obtain ⟨c, t', rfl⟩ := List.exists_cons_of_ne_nil hne
  have hc : c ≠ '/' := by simpa using hh
  have hslash : "/".data = ['/'] := by decide
  have hstart : jsStartsWith ⟨(c :: t') ++ ['/']⟩ "/" = false := by
    show "/".data.isPrefixOf ((c :: t') ++ ['/']) = false
    rw [hslash]
    simp [List.cons_append, List.isPrefixOf]
    exact fun h => hc h.symm
  show toUrlPath ⟨(c :: t') ++ ('/' :: "index.html".data)⟩ = _
  rw [toUrlPath]
  simp only [hnorm]
  rw [if_neg hne1]
  simp only [hends, if_true]
  rw [show (String.mk ((c :: t') ++ ('/' :: "index.html".data))).data.take
      ((String.mk ((c :: t') ++ ('/' :: "index.html".data))).data.length
        - "index.html".data.length)
      = (c :: t') ++ ['/'] from htake]
  simp only [hstart, Bool.false_eq_true, if_false]
  apply String.ext
  rw [String.data_append, hslash]
  rfl

/-- Claim C1, witness for the amended theorem at `t = "services"`. -/
theorem toUrlPath_index_maps_to_parent_dir_witness :
    toUrlPath "index.html" = "/" ∧
    toUrlPath ⟨"services".data ++ ('/' :: "index.html".data)⟩
      = ⟨'/' :: ("services".data ++ ['/'])⟩ :=
  toUrlPath_index_maps_to_parent_dir "services".data (by decide) (by decide) (by decide)

/-- Claim C2: in the list of entries the generator produces, the URL paths
are sorted in ascending lexicographic order (every pair in order, hence in
particular every adjacent pair). -/
theorem sitemapEntries_sorted_by_urlPath (files : List String) (now : String) :
    List.Sorted (fun a b => entryUrlPath a ≤ entryUrlPath b) (sitemapEntries files now) := by
  unfold sitemapEntries
  have hs : List.Sorted (· ≤ ·) (sitemapPaths files) :=
    List.sorted_insertionSort _ _
  rw [List.Sorted, List.pairwise_map]
  exact hs.imp (fun h => by simpa [entryUrlPath_mkUrlEntry] using h)

/-- Claim C3: the URL paths of the generated sitemap entries are a
permutation of `toUrlPath` applied to exactly the files of the tree that
qualify (name ends in `.html`, name not in the skip-file list, no skipped
directory on the path): every qualifying HTML file contributes exactly one
entry, and nothing else contributes any. -/
theorem sitemap_exactly_one_entry_per_discovered_html_file (t : FSTree) (now : String) :
    ((sitemapEntries (getHtmlFiles "" t) now).map entryUrlPath).Perm
      (((allFiles "" t).filter qualifies).map (fun f => toUrlPath f.path)) := by
  unfold sitemapEntries
  rw [List.map_map]
  have hid : (entryUrlPath ∘ mkUrlEntry now) = id := by
    funext p
    exact entryUrlPath_mkUrlEntry now p
  rw [hid, List.map_id]
  unfold sitemapPaths
  have hfil : ((getHtmlFiles "" t).map toUrlPath).filter (fun p => p != "")
      = (getHtmlFiles "" t).map toUrlPath := by
    rw [List.filter_eq_self]
    intro a ha
    rcases List.mem_map.mp ha with ⟨x, _, rfl⟩
    simp [toUrlPath_ne_empty]
  rw [hfil]
  refine (List.perm_insertionSort _ _).trans ?_
  rw [getHtmlFiles_eq_filter, List.map_map]
  exact List.Perm.refl _

/-- Claim C4: `getMeta` implements exactly the path heuristics the claim
lists, read as a first-match decision list (`getMetaSpec`, written from the
claim's words with "under a directory" as passing through `/name/`). -/
theorem getMeta_matches_path_heuristics (p : String) : getMeta p = getMetaSpec p := by
  unfold getMeta getMetaSpec underDir
  split_ifs <;> first | rfl | simp_all

/-- Claim C5: with WebP support detected, the source `photo.jpg` resolves to
`photo.webp`; without support, any source — in particular `photo.jpg` — is
returned unchanged. -/
theorem getOptimizedSrc_photo_jpg_example :
    getOptimizedSrc true "photo.jpg" = "photo.webp" ∧
    (∀ s : String, getOptimizedSrc false s = s) :=
  ⟨rfl, fun _ => rfl⟩

/-- Claim C7: after `updateHeader` runs with the header present, a scroll
offset above 50 pixels leaves the class `scrolled` on the header, and an
offset at or below 50 pixels leaves it absent. -/
theorem updateHeader_scrolled_class (y : ℚ) (cs : List String) :
    (50 < y → "scrolled" ∈ updateHeader y cs) ∧
    (y ≤ 50 → "scrolled" ∉ updateHeader y cs) := by
  constructor
  · intro h
    rw [updateHeader, if_pos h]
    exact mem_addClass _ _
  · intro h
    rw [updateHeader, if_neg (not_lt.mpr h)]
    exact not_mem_removeClass _ _

/-- Claim C7, witness: offsets 60 and 50 with representative class lists. -/
theorem updateHeader_scrolled_class_witness :
    "scrolled" ∈ updateHeader 60 [] ∧ "scrolled" ∉ updateHeader 50 ["scrolled"] :=
  ⟨(updateHeader_scrolled_class 60 []).1 (by norm_num),
    (updateHeader_scrolled_class 50 ["scrolled"]).2 (by norm_num)⟩

/-- Claim C6: when the probe of the optimized source fails, `loadImage` sets
the element's `src` back to the original effective source (the unmodified
`data-src` value), adds only the `loaded` class, and changes nothing else —
the resulting state is fixed independently of whether the fallback source
itself would load, so the fallback is single-level and non-retrying. -/
theorem loadImage_error_fallback (w : Bool) (loads : String → Bool) (img : Img)
    (h1 : effectiveSrc img ≠ "") (h2 : effectiveSrc img ≠ img.src)
    (h3 : loads (getOptimizedSrc w (effectiveSrc img)) = false) :
    loadImage w loads img =
      ({ img with src := effectiveSrc img, classes := addClass "loaded" img.classes },
        some (getOptimizedSrc w (effectiveSrc img))) ∧
    "loaded" ∈ (loadImage w loads img).1.classes := by
  have hmain : loadImage w loads img =
      ({ img with src := effectiveSrc img, classes := addClass "loaded" img.classes },
        some (getOptimizedSrc w (effectiveSrc img))) := by
    unfold loadImage
    simp [bne_iff_ne, h1, h2, h3]
  refine ⟨hmain, ?_⟩
  rw [hmain]
  exact mem_addClass _ _

/-- Claim C6, witness: an image whose `data-src` is `photo.jpg`, WebP
support detected, every probe failing. -/
theorem loadImage_error_fallback_witness :
    loadImage true (fun _ => false)
        { src := "", srcset := "", dataSrc := "photo.jpg", dataSrcset := "", classes := [] }
      = ({ src := "photo.jpg", srcset := "", dataSrc := "photo.jpg", dataSrcset := "",
            classes := ["loaded"] }, some "photo.webp") ∧
    "loaded" ∈ (loadImage true (fun _ => false)
        { src := "", srcset := "", dataSrc := "photo.jpg", dataSrcset := "",
          classes := [] }).1.classes := by
  have h := loadImage_error_fallback true (fun _ => false)
    { src := "", srcset := "", dataSrc := "photo.jpg", dataSrcset := "", classes := [] }
    (by decide) (by decide) rfl
  exact ⟨h.1.trans (by decide), h.2⟩

/-- Claim C8: a file-system error anywhere in a run — the directory walk
rejecting, or `fs.writeFile` rejecting — makes the process exit with status
1 (non-zero) after logging the error; the file content is produced exactly
when no error occurred. -/
theorem runGenerate_error_aborts (readRes : Except String FSTree)
    (writeRes : String → Except String Unit) (now : String) :
    (∀ e, readRes = Except.error e →
      runGenerate readRes writeRes now
        = GenResult.failed 1 ("Error generating sitemap: " ++ e) ∧ (1 : Nat) ≠ 0) ∧
    (∀ t e, readRes = Except.ok t →
      writeRes (sitemapXml (getHtmlFiles "" t) now) = Except.error e →
      runGenerate readRes writeRes now
        = GenResult.failed 1 ("Error generating sitemap: " ++ e) ∧ (1 : Nat) ≠ 0) ∧
    (∀ c, runGenerate readRes writeRes now = GenResult.wrote c →
      ∃ t, readRes = Except.ok t ∧ c = sitemapXml (getHtmlFiles "" t) now ∧
        writeRes c = Except.ok ()) := by
  refine ⟨?_, ?_, ?_⟩
  · intro e he
    subst he
    exact ⟨rfl, by omega⟩
  · intro t e ht hw
    subst ht
    have hred : runGenerate (Except.ok t) writeRes now
        = (match writeRes (sitemapXml (getHtmlFiles "" t) now) with
           | Except.error err => GenResult.failed 1 ("Error generating sitemap: " ++ err)
           | Except.ok _ => GenResult.wrote (sitemapXml (getHtmlFiles "" t) now)) := rfl
    rw [hred, hw]
    exact ⟨rfl, by omega⟩
  · intro c hc
    cases hr : readRes with
    | error e =>
      rw [hr] at hc
      simp [runGenerate] at hc
    | ok t =>
      rw [hr] at hc
      have hred : runGenerate (Except.ok t) writeRes now
          = (match writeRes (sitemapXml (getHtmlFiles "" t) now) with
             | Except.error err => GenResult.failed 1 ("Error generating sitemap: " ++ err)
             | Except.ok _ => GenResult.wrote (sitemapXml (getHtmlFiles "" t) now)) := rfl
      rw [hred] at hc
      cases hw : writeRes (sitemapXml (getHtmlFiles "" t) now) with
      | error e =>
        rw [hw] at hc
        simp at hc
      | ok u =>
        rw [hw] at hc
        simp at hc
        exact ⟨t, rfl, hc.symm, by rw [← hc, hw]⟩

/-- Claim C8, witness: a failing directory walk aborts with exit status 1. -/
theorem runGenerate_error_aborts_witness :
    runGenerate (Except.error "ENOENT") (fun _ => Except.ok ()) "2026-10-11"
      = GenResult.failed 1 ("Error generating sitemap: " ++ "ENOENT") ∧ (1 : Nat) ≠ 0 :=
  (runGenerate_error_aborts (Except.error "ENOENT") (fun _ => Except.ok ()) "2026-10-11").1
    "ENOENT" rfl

/-- Claim C9, counterexample: an image that already carries the `loaded`
class (state after a successful optimized load: `src = photo.webp`,
`data-src = photo.jpg`) is loaded again by a `loadImage` call — the guard
compares `src` with `data-src`, not the `loaded` class, so the probe
requests `photo.webp` once more. -/
theorem loaded_image_retrigger_counterexample :
    "loaded" ∈ (Img.mk "photo.webp" "" "photo.jpg" "" ["loaded"]).classes ∧
    (loadImage true (fun _ => true) (Img.mk "photo.webp" "" "photo.jpg" "" ["loaded"])).2
      = some "photo.webp" := by
  constructor
  · decide
  · rfl

/-- Claim C9, amended: an image whose current `src` equals its effective
source is never reloaded — `loadImage` returns it unchanged and requests no
load; and no image carrying the `loaded` class is ever registered with the
lazy-loading observer, by the initial setup or by the mutation observer, so
observer-driven loads occur at most once per image.  (A direct `loadImage`
call on a loaded image whose `data-src` differs from its `src` does trigger
a load, as the counterexample shows.) -/
theorem image_loaded_at_most_once_amended (w : Bool) (loads : String → Bool) (img : Img)
    (imgs : List Img) :
    (effectiveSrc img = img.src → loadImage w loads img = (img, none)) ∧
    ("loaded" ∈ img.classes → img ∉ observeCandidates imgs) := by
  constructor
  · intro h
    unfold loadImage
    simp [h]
  · intro h hmem
    rw [observeCandidates, List.mem_filter] at hmem
    simp at hmem
    exact hmem.2 h

/-- Claim C9, witness: a loaded image whose `src` equals its `data-src` is
left untouched and is not observed. -/
theorem image_loaded_at_most_once_amended_witness :
    loadImage true (fun _ => true)
        { src := "a.jpg", srcset := "", dataSrc := "a.jpg", dataSrcset := "",
          classes := ["loaded"] }
      = ({ src := "a.jpg", srcset := "", dataSrc := "a.jpg", dataSrcset := "",
            classes := ["loaded"] }, none) ∧
    ({ src := "a.jpg", srcset := "", dataSrc := "a.jpg", dataSrcset := "",
        classes := ["loaded"] } : Img) ∉ observeCandidates
        [{ src := "a.jpg", srcset := "", dataSrc := "a.jpg", dataSrcset := "",
            classes := ["loaded"] }] :=
  ⟨(image_loaded_at_most_once_amended true (fun _ => true) _ []).1 (by decide),
    (image_loaded_at_most_once_amended true (fun _ => true) _ _).2 (by decide)⟩

/-- Claim C10: `getOptimizedSrc` is idempotent, and a source already ending
in `.webp` or containing `data:` is returned unchanged whatever the
detected support. -/
theorem getOptimizedSrc_idempotent (w : Bool) (s : String) :
    getOptimizedSrc w (getOptimizedSrc w s) = getOptimizedSrc w s ∧
    (jsEndsWith s ".webp" = true → getOptimizedSrc w s = s) ∧
    (jsIncludes s "data:" = true → getOptimizedSrc w s = s) := by
  refine ⟨?_, getOptimizedSrc_of_webpEnd w s, getOptimizedSrc_of_dataUri w s⟩
  cases w with
  | false => rfl
  | true =>
    by_cases h1 : jsEndsWith s ".webp" = true
    · rw [getOptimizedSrc_of_webpEnd _ _ h1, getOptimizedSrc_of_webpEnd _ _ h1]
    by_cases h2 : jsIncludes s "data:" = true
    · rw [getOptimizedSrc_of_dataUri _ _ h2, getOptimizedSrc_of_dataUri _ _ h2]
    have hmain : getOptimizedSrc true s = replaceImageExtWithWebp s := by
      simp [getOptimizedSrc, h1, h2]
    rw [hmain]
    unfold replaceImageExtWithWebp
    split_ifs with a1 a2 a3
    · exact getOptimizedSrc_of_webpEnd _ _ (jsEndsWith_append_webp _)
    · exact getOptimizedSrc_of_webpEnd _ _ (jsEndsWith_append_webp _)
    · exact getOptimizedSrc_of_webpEnd _ _ (jsEndsWith_append_webp _)
    · rw [hmain]
      unfold replaceImageExtWithWebp
      simp [a1, a2, a3]

/-- Claim C10, witness: the hypotheses of the unchanged cases hold at
`x.webp` and at a `data:` URI, and idempotence is visible at `p.jpg`. -/
theorem getOptimizedSrc_idempotent_witness :
    getOptimizedSrc true "x.webp" = "x.webp" ∧
    getOptimizedSrc true "data:image/webp;base64,AA" = "data:image/webp;base64,AA" ∧
    getOptimizedSrc true (getOptimizedSrc true "p.jpg") = getOptimizedSrc true "p.jpg" :=
  ⟨(getOptimizedSrc_idempotent true "x.webp").2.1 (by decide),
    (getOptimizedSrc_idempotent true "data:image/webp;base64,AA").2.2 (by decide),
    (getOptimizedSrc_idempotent true "p.jpg").1⟩
